import Mathlib

/-!
Verification of the recurrence-scheduling and delivery-retry engine of the
akwaabasms backend (CronJobService in the cron job module, the date-range
utility in src/utils/date.ts, and ScheduleService.formatMessage in
src/services/schedule.service.ts).

Part 1: the retry/backoff state machine.  `handleRecipientError` and the
success branch of `processRecipient` mutate the fields `retryAttempts`,
`nextRetryAt`, `isActive` and `lastSent` of a recipient.  Timestamps here
are modelled as hours since an arbitrary epoch (an `Int`): the only
operations the retry code performs on them are `new Date()` (the evaluation
instant, a parameter of the transition) and `setHours(getHours() + d)`
(addition of `d` hours, which JavaScript normalises across day boundaries,
so it is plain addition on the hour count).
-/

/-- Retry-relevant state of a `Recipient` row: `retryAttempts`,
`nextRetryAt`, `isActive`, `lastSent` (timestamps in hours). -/
structure RetryState where
  retryAttempts : Nat
  nextRetryAt : Option Int
  isActive : Bool
  lastSent : Option Int
deriving DecidableEq, Repr

/-- Source constant `maxRetries = 3` in `handleRecipientError`. -/
def maxRetries : Nat := 3

/-- Source lookup `retryDelays[i] || 24` with `retryDelays = [2, 6, 24]`:
an out-of-bounds index yields `undefined`, and `undefined || 24` is `24`. -/
def retryDelay (i : Nat) : Nat :=
  if i = 0 then 2 else if i = 1 then 6 else if i = 2 then 24 else 24

/-- Embedding of `handleRecipientError` (state part): increment
`retryAttempts`; if the new count reaches `maxRetries` deactivate and clear
`nextRetryAt`, otherwise set `nextRetryAt` to the evaluation instant plus
`retryDelays[retryAttempts - 1] || 24` hours. -/
def onFailure (s : RetryState) (now : Int) : RetryState :=
  let attempts := s.retryAttempts + 1
  if attempts ≥ maxRetries then
    { s with retryAttempts := attempts, isActive := false, nextRetryAt := none }
  else
    { s with retryAttempts := attempts,
             nextRetryAt := some (now + (retryDelay (attempts - 1) : Int)) }

/-- Embedding of the success branch of `processRecipient`:
`lastSent = currentDate; retryAttempts = 0; nextRetryAt = undefined`. -/
def onSuccess (s : RetryState) (now : Int) : RetryState :=
  { s with retryAttempts := 0, nextRetryAt := none, lastSent := some now }

/-- Fresh recipient: `retryAttempts = 0`, `nextRetryAt` null, active,
never sent. -/
def freshState : RetryState :=
  { retryAttempts := 0, nextRetryAt := none, isActive := true, lastSent := none }

/-- States reachable from a fresh recipient by the transitions the sweep
can apply.  The sweep loads only rows with `isActive = true`, so both
transitions are guarded by activity. -/
inductive ReachableState : RetryState → Prop
  | init : ReachableState freshState
  | success (s : RetryState) (t : Int) :
      ReachableState s → s.isActive = true → ReachableState (onSuccess s t)
  | failure (s : RetryState) (t : Int) :
      ReachableState s → s.isActive = true → ReachableState (onFailure s t)

/-- Claim C1 (counterexample): from a fresh recipient, the THIRD consecutive
`onFailure` already deactivates the recipient (`isActive = false`,
`nextRetryAt` cleared); the claim instead expects the third failure to set a
24-hour backoff and only a fourth failure to deactivate. -/
theorem c1_counterexample :
    ¬ ((onFailure (onFailure (onFailure freshState 0) 0) 0).isActive = true ∧
       (onFailure (onFailure (onFailure freshState 0) 0) 0).nextRetryAt =
         some 24) := by
  decide

/-- Claim C1 (amended): from a fresh recipient, the first failure sets
`nextRetryAt` two hours after the evaluation instant, the second failure six
hours after its evaluation instant, and the third consecutive failure
deactivates the recipient (`active = false`) and clears `nextRetryAt`; the
24-hour delay in `retryDelays` is never used on this path. -/
theorem c1_amended_backoff (ls : Option Int) (t1 t2 t3 : Int) :
    (onFailure ⟨0, none, true, ls⟩ t1).nextRetryAt = some (t1 + 2) ∧
    (onFailure ⟨0, none, true, ls⟩ t1).retryAttempts = 1 ∧
    (onFailure ⟨0, none, true, ls⟩ t1).isActive = true ∧
    (onFailure (onFailure ⟨0, none, true, ls⟩ t1) t2).nextRetryAt =
      some (t2 + 6) ∧
    (onFailure (onFailure ⟨0, none, true, ls⟩ t1) t2).retryAttempts = 2 ∧
    (onFailure (onFailure ⟨0, none, true, ls⟩ t1) t2).isActive = true ∧
    (onFailure (onFailure (onFailure ⟨0, none, true, ls⟩ t1) t2) t3).isActive
      = false ∧
    (onFailure (onFailure (onFailure ⟨0, none, true, ls⟩ t1) t2) t3).nextRetryAt
      = none ∧
    (onFailure (onFailure (onFailure ⟨0, none, true, ls⟩ t1) t2) t3).retryAttempts
      = 3 := by
  simp [onFailure, maxRetries, retryDelay]

/-- Claim C7: applying `onSuccess` twice with the same `now` yields the same
state as applying it once, and after either one or two applications
`retryAttempts = 0`, `nextRetryAt` is cleared, and `lastSent = now`. -/
theorem c7_onSuccess_idempotent (s : RetryState) (now : Int) :
    onSuccess (onSuccess s now) now = onSuccess s now ∧
    (onSuccess s now).retryAttempts = 0 ∧
    (onSuccess s now).nextRetryAt = none ∧
    (onSuccess s now).lastSent = some now := by
  simp [onSuccess]

/-- Claim C9: on every state reachable from a fresh recipient by the guarded
success/failure transitions, `nextRetryAt` is non-null only while the
recipient is active with `0 < retryAttempts < 3`, and a deactivated
recipient has `nextRetryAt` cleared; moreover every failure increments
`retryAttempts` by exactly one and every success resets it to 0. -/
theorem c9_retry_invariant :
    (∀ s : RetryState, ReachableState s →
      (s.nextRetryAt ≠ none →
        s.isActive = true ∧ 0 < s.retryAttempts ∧ s.retryAttempts < 3) ∧
      (s.isActive = false → s.nextRetryAt = none)) ∧
    (∀ (s : RetryState) (t : Int),
      (onFailure s t).retryAttempts = s.retryAttempts + 1 ∧
      (onSuccess s t).retryAttempts = 0) := by
  constructor
  · intro s hs
    induction hs with
    | init => simp [freshState]
    | success s t _ hact _ => simp [onSuccess, hact]
    | failure s t _ hact _ =>
        unfold onFailure
        by_cases h3 : s.retryAttempts + 1 ≥ maxRetries
        · simp [h3]
        · simp only [h3, if_neg, ite_false]
          refine ⟨fun _ => ⟨hact, ?_, ?_⟩, fun hfalse => ?_⟩
          · omega
          · simp [maxRetries] at h3; omega
          · rw [hact] at hfalse; cases hfalse
  · intro s t
    constructor
    · unfold onFailure
      by_cases h3 : s.retryAttempts + 1 ≥ maxRetries <;> simp [h3]
    · simp [onSuccess]

/-- Witness for C9: the invariant instantiated at the reachable state
obtained from one failure on a fresh recipient. -/
theorem c9_witness :
    ((onFailure freshState 0).nextRetryAt ≠ none →
      (onFailure freshState 0).isActive = true ∧
      0 < (onFailure freshState 0).retryAttempts ∧
      (onFailure freshState 0).retryAttempts < 3) ∧
    ((onFailure freshState 0).isActive = false →
      (onFailure freshState 0).nextRetryAt = none) :=
  c9_retry_invariant.1 (onFailure freshState 0)
    (ReachableState.failure freshState 0 ReachableState.init rfl)

/-!
Part 2: calendar dates.  JavaScript `Date` values flowing through
`calculateNextSendDate` and the date-range utilities are modelled as
calendar dates with an hour component: `year` (JS `getFullYear`), `month`
(JS `getMonth`, 0 to 11), `day` (JS `getDate`, 1-based) and `hour`
(JS `getHours`).  The date-fns helpers the source uses (`addDays`,
`addMonths`, `addYears`, `subDays`, `subMonths`, `startOfMonth`,
`endOfMonth`, `isAfter`) are embedded below with their documented
semantics: day arithmetic carries across month and year boundaries, and
month/year arithmetic clamps the day to the last day of the target month.
-/

/-- JavaScript calendar date: `getFullYear`, `getMonth` (0-11), `getDate`
(1-based), `getHours`. -/
structure JDate where
  year : Int
  month : Nat
  day : Nat
  hour : Nat
deriving DecidableEq, Repr

/-- Gregorian leap-year test, as JS `Date` implements it. -/
def isLeap (y : Int) : Bool :=
  (y % 4 == 0 && y % 100 != 0) || y % 400 == 0

/-- Number of days in month `m` (0-11) of year `y`. -/
def daysInMonth (y : Int) (m : Nat) : Nat :=
  if m = 0 then 31
  else if m = 1 then (if isLeap y then 29 else 28)
  else if m = 2 then 31
  else if m = 3 then 30
  else if m = 4 then 31
  else if m = 5 then 30
  else if m = 6 then 31
  else if m = 7 then 31
  else if m = 8 then 30
  else if m = 9 then 31
  else if m = 10 then 30
  else 31

/-- Valid calendar date: month in range, day within the month, hour in
range. -/
def JDate.Valid (d : JDate) : Prop :=
  d.month < 12 ∧ 1 ≤ d.day ∧ d.day ≤ daysInMonth d.year d.month ∧ d.hour < 24

instance (d : JDate) : Decidable d.Valid := by
  unfold JDate.Valid; infer_instance

/-- Successor day, carrying across month and year boundaries (time of day
preserved). -/
def nextDay (d : JDate) : JDate :=
  if d.day < daysInMonth d.year d.month then { d with day := d.day + 1 }
  else if d.month < 11 then { d with month := d.month + 1, day := 1 }
  else { d with year := d.year + 1, month := 0, day := 1 }

/-- Predecessor day, borrowing across month and year boundaries. -/
def prevDay (d : JDate) : JDate :=
  if 1 < d.day then { d with day := d.day - 1 }
  else if 0 < d.month then
    { d with month := d.month - 1, day := daysInMonth d.year (d.month - 1) }
  else { d with year := d.year - 1, month := 11, day := 31 }

/-- date-fns `addDays d n` for `n ≥ 0`: advance `n` calendar days. -/
def addDays (d : JDate) : Nat → JDate
  | 0 => d
  | n + 1 => nextDay (addDays d n)

/-- date-fns `subDays d n` for `n ≥ 0`: go back `n` calendar days. -/
def subDays (d : JDate) : Nat → JDate
  | 0 => d
  | n + 1 => prevDay (subDays d n)

/-- date-fns `addMonths` generalised to an integer month offset (negative
offsets give `subMonths`): shift the linear month count and clamp the day
to the last day of the target month, as the date-fns documentation
states. -/
def addMonthsZ (d : JDate) (k : Int) : JDate :=
  let total : Int := d.year * 12 + (d.month : Int) + k
  let y := total / 12
  let m := (total % 12).toNat
  { d with year := y, month := m, day := min d.day (daysInMonth y m) }

/-- date-fns `addMonths d n` for `n ≥ 0`. -/
def addMonths (d : JDate) (n : Nat) : JDate := addMonthsZ d (n : Int)

/-- date-fns `subMonths d n` for `n ≥ 0`. -/
def subMonths (d : JDate) (n : Nat) : JDate := addMonthsZ d (-(n : Int))

/-- date-fns `addYears d n`: same month, day clamped (Feb 29 anchors clamp
to Feb 28 in non-leap years). -/
def addYears (d : JDate) (n : Nat) : JDate :=
  { d with year := d.year + n,
           day := min d.day (daysInMonth (d.year + n) d.month) }

/-- Strict chronological order on the modelled dates. -/
def jlt (a b : JDate) : Prop :=
  a.year < b.year ∨ (a.year = b.year ∧
    (a.month < b.month ∨ (a.month = b.month ∧
      (a.day < b.day ∨ (a.day = b.day ∧ a.hour < b.hour)))))

instance (a b : JDate) : Decidable (jlt a b) := by
  unfold jlt; infer_instance

/-- Chronological order (non-strict). -/
def jle (a b : JDate) : Prop :=
  a.year < b.year ∨ (a.year = b.year ∧
    (a.month < b.month ∨ (a.month = b.month ∧
      (a.day < b.day ∨ (a.day = b.day ∧ a.hour ≤ b.hour)))))

instance (a b : JDate) : Decidable (jle a b) := by
  unfold jle; infer_instance

/-- date-fns `isAfter a b`: `a` is chronologically after `b`. -/
def isAfter (a b : JDate) : Bool := decide (jlt b a)

/-- Totality of the chronological order: `isAfter a b` is false exactly
when `a ≤ b`. -/
theorem isAfter_eq_false_iff (a b : JDate) : isAfter a b = false ↔ jle a b := by
  unfold isAfter jle jlt
  rw [decide_eq_false_iff_not]
  omega

/-- Embedding of `new Date(y, m, 0)` in the Monthly branch of
`calculateNextSendDate`: JavaScript normalises day number 0 to the last day
of the month preceding month index `m` (month index 12 itself rolls into
January of the next year), at midnight. -/
def jsDateMonthDay0 (y : Int) (m : Nat) : JDate :=
  if m = 0 then ⟨y - 1, 11, 31, 0⟩
  else ⟨y, m - 1, daysInMonth y (m - 1), 0⟩

/-- Embedding of `CronJobService.calculateNextSendDate`: with no `lastSent`,
the start date itself unless it lies in the future; otherwise one period
past `lastSent` according to the frequency string, with the Monthly branch
guarding against a month rollover (`undefined` on an unrecognised
frequency). -/
def calculateNextSendDate (lastSent : Option JDate) (frequency : String)
    (startDate : JDate) (currentDate : JDate) : Option JDate :=
  match lastSent with
  | none => if isAfter startDate currentDate then none else some startDate
  | some ls =>
    if frequency = "Daily" then some (addDays ls 1)
    else if frequency = "Weekly" then some (addDays ls 7)
    else if frequency = "Monthly" then
      let nextMonth := addMonths ls 1
      if nextMonth.month ≠ (ls.month + 1) % 12 then
        some (jsDateMonthDay0 nextMonth.year (nextMonth.month + 1))
      else some nextMonth
    else if frequency = "Quarterly" then some (addMonths ls 3)
    else if frequency = "Annually" then some (addYears ls 1)
    else none

/-- Adding one month moves the JS month index to the next month modulo 12,
so the rollover guard in the Monthly branch never fires. -/
theorem addMonths_one_month (ls : JDate) :
    (addMonths ls 1).month = (ls.month + 1) % 12 := by
  simp only [addMonths, addMonthsZ]
  omega

/-- Adding `n` months advances the linear month count `year * 12 + month`
by exactly `n`. -/
theorem addMonths_linear (ls : JDate) (n : Nat) :
    (addMonths ls n).year * 12 + ((addMonths ls n).month : Int) =
      ls.year * 12 + (ls.month : Int) + n := by
  simp only [addMonths, addMonthsZ]
  omega

/-- Claim C2: for every non-null `lastSent` and every supported frequency,
the computed next send date is exactly one period after `lastSent`
(Daily +1 day, Weekly +7 days, Monthly +1 clamped calendar month,
Quarterly +3 clamped calendar months, Annually +1 clamped calendar year),
and for every frequency the result does not depend on `now`, so the
schedule never advances by more than one period per call even when `now`
is many periods past due. -/
theorem c2_next_send_one_period (ls : JDate) (sd now now' : JDate) :
    calculateNextSendDate (some ls) "Daily" sd now = some (addDays ls 1) ∧
    calculateNextSendDate (some ls) "Weekly" sd now = some (addDays ls 7) ∧
    calculateNextSendDate (some ls) "Monthly" sd now = some (addMonths ls 1) ∧
    calculateNextSendDate (some ls) "Quarterly" sd now =
      some (addMonths ls 3) ∧
    calculateNextSendDate (some ls) "Annually" sd now =
      some (addYears ls 1) ∧
    (∀ f : String, calculateNextSendDate (some ls) f sd now =
      calculateNextSendDate (some ls) f sd now') := by
  have hm := addMonths_one_month ls
  refine ⟨rfl, rfl, ?_, by rfl, by rfl, fun f => rfl⟩
  simp [calculateNextSendDate, hm]

/-- Embedding of the due test of `processRecipient` (lines 96-103): a
recipient is due when `calculateNextSendDate` yields a date not after
`now`. -/
def isDue (frequency : String) (startDate : JDate) (lastSent : Option JDate)
    (now : JDate) : Bool :=
  match calculateNextSendDate lastSent frequency startDate now with
  | none => false
  | some nsd => !(isAfter nsd now)

/-- Claim C4: with `lastSent` null, a recipient is due exactly when
`now >= startDate`, for every frequency string; in particular a start date
strictly in the future is never due. -/
theorem c4_due_iff (f : String) (sd now : JDate) :
    (isDue f sd none now = true ↔ jle sd now) ∧
    (isAfter sd now = true → isDue f sd none now = false) := by
  cases hA : isAfter sd now with
  | false =>
      have h1 : jle sd now := (isAfter_eq_false_iff sd now).mp hA
      constructor
      · unfold isDue calculateNextSendDate
        simp [hA, h1]
      · intro hcontra
        simp at hcontra
  | true =>
      have h1 : ¬ jle sd now := by
        intro hle
        rw [← isAfter_eq_false_iff] at hle
        rw [hA] at hle
        cases hle
      constructor
      · unfold isDue calculateNextSendDate
        simp [hA, h1]
      · intro _
        unfold isDue calculateNextSendDate
        simp [hA]

/-- Witness for C4: due on the start date itself, and a future start date
is not due, at concrete dates. -/
theorem c4_witness :
    (isDue "Weekly" ⟨2024, 0, 1, 0⟩ none ⟨2024, 0, 1, 0⟩ = true ↔
      jle ⟨2024, 0, 1, 0⟩ ⟨2024, 0, 1, 0⟩) ∧
    (isAfter ⟨2024, 0, 1, 0⟩ ⟨2023, 11, 31, 0⟩ = true →
      isDue "Weekly" ⟨2024, 0, 1, 0⟩ none ⟨2023, 11, 31, 0⟩ = false) :=
  ⟨(c4_due_iff "Weekly" ⟨2024, 0, 1, 0⟩ ⟨2024, 0, 1, 0⟩).1,
   (c4_due_iff "Weekly" ⟨2024, 0, 1, 0⟩ ⟨2023, 11, 31, 0⟩).2⟩

/-- Claim C5: one Monthly period lands exactly one month later in linear
month count (never a rollover into the following month) with the day
clamped to the last valid day of the target month when the anchor day does
not exist there; the same holds for Quarterly (+3 months); an Annually
advance from a Feb 29 anchor into a non-leap year clamps to Feb 28. -/
theorem c5_clamping (ls : JDate) (h : ls.Valid) (sd now : JDate) :
    (calculateNextSendDate (some ls) "Monthly" sd now =
       some (addMonths ls 1) ∧
     (addMonths ls 1).year * 12 + ((addMonths ls 1).month : Int) =
       ls.year * 12 + (ls.month : Int) + 1 ∧
     (addMonths ls 1).day =
       min ls.day (daysInMonth (addMonths ls 1).year (addMonths ls 1).month) ∧
     (addMonths ls 1).day ≤
       daysInMonth (addMonths ls 1).year (addMonths ls 1).month) ∧
    (calculateNextSendDate (some ls) "Quarterly" sd now =
       some (addMonths ls 3) ∧
     (addMonths ls 3).year * 12 + ((addMonths ls 3).month : Int) =
       ls.year * 12 + (ls.month : Int) + 3 ∧
     (addMonths ls 3).day =
       min ls.day (daysInMonth (addMonths ls 3).year (addMonths ls 3).month) ∧
     (addMonths ls 3).day ≤
       daysInMonth (addMonths ls 3).year (addMonths ls 3).month) ∧
    (ls.month = 1 → ls.day = 29 → isLeap (ls.year + 1) = false →
      calculateNextSendDate (some ls) "Annually" sd now =
        some ⟨ls.year + 1, 1, 28, ls.hour⟩) := by
  have hm := addMonths_one_month ls
  refine ⟨⟨?_, addMonths_linear ls 1, rfl, ?_⟩,
          ⟨rfl, addMonths_linear ls 3, rfl, ?_⟩, ?_⟩
  · simp [calculateNextSendDate, hm]
  · simp [addMonths, addMonthsZ]
  · simp [addMonths, addMonthsZ]
  · intro hmo hd hnl
    simp only [calculateNextSendDate, addYears]
    rw [hmo, hd]
    simp [daysInMonth, hnl]

/-- Witness for C5: January 31, 2023 advanced one month clamps to
February 28, 2023, and February 29, 2024 advanced one year clamps to
February 28, 2025. -/
theorem c5_witness :
    ((JDate.mk 2023 0 31 0).Valid ∧
      calculateNextSendDate (some ⟨2023, 0, 31, 0⟩) "Monthly"
        ⟨2023, 0, 1, 0⟩ ⟨2023, 5, 1, 0⟩ = some (addMonths ⟨2023, 0, 31, 0⟩ 1) ∧
      addMonths ⟨2023, 0, 31, 0⟩ 1 = ⟨2023, 1, 28, 0⟩) ∧
    ((JDate.mk 2024 1 29 0).Valid ∧
      calculateNextSendDate (some ⟨2024, 1, 29, 0⟩) "Annually"
        ⟨2024, 1, 1, 0⟩ ⟨2025, 5, 1, 0⟩ = some ⟨2025, 1, 28, 0⟩) :=
  ⟨⟨by decide,
    (c5_clamping ⟨2023, 0, 31, 0⟩ (by decide) ⟨2023, 0, 1, 0⟩
      ⟨2023, 5, 1, 0⟩).1.1,
    by decide⟩,
   ⟨by decide,
    (c5_clamping ⟨2024, 1, 29, 0⟩ (by decide) ⟨2024, 1, 1, 0⟩
      ⟨2025, 5, 1, 0⟩).2.2 rfl rfl (by decide)⟩⟩

/-!
Part 3: the reporting-window resolver `getDateRange` of src/utils/date.ts.
Its results are `format(_, 'yyyy-MM-dd')` strings; they are modelled as the
calendar triple (year, month number 1-12, day) that such a string displays.
-/

/-- date-fns `startOfMonth`: first day of the date's month, midnight. -/
def startOfMonth (d : JDate) : JDate := ⟨d.year, d.month, 1, 0⟩

/-- date-fns `endOfMonth`: last day of the date's month, end of day
(hour 23). -/
def endOfMonth (d : JDate) : JDate :=
  ⟨d.year, d.month, daysInMonth d.year d.month, 23⟩

/-- Calendar triple displayed by `format(d, 'yyyy-MM-dd')`: year, 1-based
month number, day. -/
def formatYMD (d : JDate) : Int × Nat × Nat := (d.year, d.month + 1, d.day)

namespace DateUtils

/-- Embedding of `getDateRange` from src/utils/date.ts: trailing windows for
Daily and Weekly, previous-calendar-period windows for Monthly and
Quarterly, with `lastSent` overriding the window start when present, and an
`Invalid frequency` error on any other frequency string (`now` stands for
the `new Date()` the function takes internally). -/
def getDateRange (frequency : String) (lastSent : Option JDate)
    (now : JDate) : Except String ((Int × Nat × Nat) × (Int × Nat × Nat)) :=
  if frequency = "Daily" then
    .ok (formatYMD (lastSent.getD (subDays now 1)), formatYMD now)
  else if frequency = "Weekly" then
    .ok (formatYMD (lastSent.getD (subDays now 7)), formatYMD now)
  else if frequency = "Monthly" then
    let s := lastSent.getD (startOfMonth (subMonths now 1))
    .ok (formatYMD s, formatYMD (endOfMonth s))
  else if frequency = "Quarterly" then
    let s := lastSent.getD (startOfMonth (subMonths now 3))
    .ok (formatYMD s, formatYMD (endOfMonth (subMonths now 1)))
  else
    .error "Invalid frequency"

end DateUtils

/-- Claim C3 (counterexample): for the supported frequency `Annually` with a
non-null `lastSent`, `getDateRange` does not succeed: it throws
`Invalid frequency`, refuting the claim that every supported frequency
yields a window (with Annually mirroring Monthly). -/
theorem c3_counterexample :
    DateUtils.getDateRange "Annually" (some ⟨2024, 0, 31, 0⟩) ⟨2025, 0, 15, 9⟩
      = Except.error "Invalid frequency" := by
  simp [DateUtils.getDateRange]

/-- Claim C3 (amended): for Daily, Weekly, Monthly and Quarterly,
`getDateRange` succeeds and its window starts at `lastSent` when that is
non-null (Monthly ending at the end of `lastSent`'s month, Quarterly at the
end of the previous calendar month); with `lastSent` null it falls back to
the trailing 1- or 7-day window or the previous calendar period; `Annually`
is not handled and throws `Invalid frequency`. -/
theorem c3_amended_window (ls now : JDate) :
    DateUtils.getDateRange "Daily" (some ls) now =
      Except.ok (formatYMD ls, formatYMD now) ∧
    DateUtils.getDateRange "Weekly" (some ls) now =
      Except.ok (formatYMD ls, formatYMD now) ∧
    DateUtils.getDateRange "Monthly" (some ls) now =
      Except.ok (formatYMD ls, formatYMD (endOfMonth ls)) ∧
    DateUtils.getDateRange "Quarterly" (some ls) now =
      Except.ok (formatYMD ls, formatYMD (endOfMonth (subMonths now 1))) ∧
    DateUtils.getDateRange "Annually" (some ls) now =
      Except.error "Invalid frequency" ∧
    DateUtils.getDateRange "Daily" none now =
      Except.ok (formatYMD (subDays now 1), formatYMD now) ∧
    DateUtils.getDateRange "Weekly" none now =
      Except.ok (formatYMD (subDays now 7), formatYMD now) ∧
    DateUtils.getDateRange "Monthly" none now =
      Except.ok (formatYMD (startOfMonth (subMonths now 1)),
        formatYMD (endOfMonth (startOfMonth (subMonths now 1)))) ∧
    DateUtils.getDateRange "Quarterly" none now =
      Except.ok (formatYMD (startOfMonth (subMonths now 3)),
        formatYMD (endOfMonth (subMonths now 1))) := by
  refine ⟨?_, ?_, ?_, ?_, ?_, ?_, ?_, ?_, ?_⟩ <;>
    simp [DateUtils.getDateRange]

/-!
Part 4: the message formatter `ScheduleService.formatMessage` of
src/services/schedule.service.ts.  `message.replace(new RegExp(pattern,
'g'), value)` replaces every non-overlapping occurrence of the literal
pattern, scanning left to right and never rescanning the replacement text;
the formatter folds this over the `[key] -> value` entries in order and
then rejects messages longer than 160 characters.
-/

/-- Left-to-right test that `pat` occurs at the head of `s`. -/
def listStartsWith : List Char → List Char → Bool
  | [], _ => true
  | _ :: _, [] => false
  | p :: ps, c :: cs => p == c && listStartsWith ps cs

/-- Fuel-driven global replacement of the literal pattern `pat` by `rep`,
scanning left to right and continuing after each replacement (the semantics
of JS `String.replace` with a `g` regexp on a literal pattern).  The fuel
is the length of the subject, which bounds the number of scan steps. -/
def replaceGo (pat rep : List Char) : Nat → List Char → List Char
  | 0, s => s
  | fuel + 1, s =>
    match s with
    | [] => []
    | c :: rest =>
      if pat ≠ [] ∧ listStartsWith pat s = true then
        rep ++ replaceGo pat rep fuel (s.drop pat.length)
      else
        c :: replaceGo pat rep fuel rest

/-- Global literal-pattern replacement on strings. -/
def replaceAllStr (s pat rep : String) : String :=
  ⟨replaceGo pat.data rep.data s.data.length s.data⟩

/-- Message after substituting every `[key]` entry of `data`, in order:
the fold in `formatMessage` before the length check. -/
def substitutedMessage (data : List (String × String))
    (template : String) : String :=
  data.foldl (fun m kv => replaceAllStr m ("[" ++ kv.1 ++ "]") kv.2) template

/-- Embedding of `ScheduleService.formatMessage`: substitute all `[key]`
tokens of `data` into `template`, then throw when the result exceeds 160
characters. -/
def formatMessage (data : List (String × String))
    (template : String) : Except String String :=
  let message := substitutedMessage data template
  if message.length > 160 then
    .error "Formatted message exceeds 160 character limit"
  else
    .ok message

/-- Claim C6: on the template `Hi [FirstName], you had [ClockIns]
clock-ins` with tokens `FirstName = Ama` and `ClockIns = 5` (stringified),
formatting yields exactly `Hi Ama, you had 5 clock-ins`; and in general
formatting fails (with the message-too-long error) exactly when the
substituted result exceeds 160 characters. -/
theorem c6_format :
    formatMessage [("FirstName", "Ama"), ("ClockIns", toString (5 : Nat))]
      "Hi [FirstName], you had [ClockIns] clock-ins"
      = Except.ok "Hi Ama, you had 5 clock-ins" ∧
    (∀ (data : List (String × String)) (template : String),
      (∃ e, formatMessage data template = Except.error e) ↔
        160 < (substitutedMessage data template).length) := by
  constructor
  · rfl
  · intro data template
    by_cases h : 160 < (substitutedMessage data template).length
    · have he : formatMessage data template =
          Except.error "Formatted message exceeds 160 character limit" := by
        simp only [formatMessage]
        rw [if_pos h]
      exact ⟨fun _ => h, fun _ => ⟨_, he⟩⟩
    · have he : formatMessage data template =
          Except.ok (substitutedMessage data template) := by
        simp only [formatMessage]
        rw [if_neg h]
      constructor
      · rintro ⟨e, hee⟩
        rw [he] at hee
        cases hee
      · intro hc
        exact absurd hc h

/-!
Part 5: the per-recipient pipeline `CronJobService.processRecipient`
together with its helpers `getDateRange` (the cron-service variant, which
takes no `lastSent`) and `handleRecipientError`.  The two external effects
are abstracted as parameters: `hasSchedule` (whether the recipient's
schedule relation resolved) and `smsOk` (whether `smsService.sendSMS`
resolved or threw).  The message-formatting step between the window
computation and the send cannot throw and does not influence control flow,
so the produced message text is not tracked.
-/

/-- JS `d.setMonth(m)` (month index possibly negative): normalise the month
into the year, and let a day past the end of the target month roll forward
into the following month, as JS does (no clamping). -/
def jsSetMonth (d : JDate) (m : Int) : JDate :=
  let total : Int := d.year * 12 + m
  let y := total / 12
  let mm := (total % 12).toNat
  if d.day ≤ daysInMonth y mm then ⟨y, mm, d.day, d.hour⟩
  else if mm = 11 then ⟨y + 1, 0, d.day - daysInMonth y mm, d.hour⟩
  else ⟨y, mm + 1, d.day - daysInMonth y mm, d.hour⟩

/-- JS `d.setFullYear(y)`: keep month and day, letting Feb 29 roll forward
to Mar 1 in a non-leap target year. -/
def jsSetFullYear (d : JDate) (y : Int) : JDate :=
  if d.day ≤ daysInMonth y d.month then ⟨y, d.month, d.day, d.hour⟩
  else if d.month = 11 then ⟨y + 1, 0, d.day - daysInMonth y d.month, d.hour⟩
  else ⟨y, d.month + 1, d.day - daysInMonth y d.month, d.hour⟩

/-- JS `setHours(getHours() + h)`: hour overflow carries into following
days. -/
def addHoursJ (d : JDate) (h : Nat) : JDate :=
  addDays { d with hour := (d.hour + h) % 24 } ((d.hour + h) / 24)

namespace CronJob

/-- Embedding of `CronJobService.getDateRange`: a lookback from `endDate`
by one or seven days (`setDate(getDate() - k)` steps back exactly `k`
calendar days), one or three months, or one year, with one day as the
default. -/
def getDateRange (frequency : String) (endDate : JDate) : JDate × JDate :=
  let startDate :=
    if frequency = "Daily" then subDays endDate 1
    else if frequency = "Weekly" then subDays endDate 7
    else if frequency = "Monthly" then
      jsSetMonth endDate ((endDate.month : Int) - 1)
    else if frequency = "Quarterly" then
      jsSetMonth endDate ((endDate.month : Int) - 3)
    else if frequency = "Annually" then jsSetFullYear endDate (endDate.year - 1)
    else subDays endDate 1
  (startDate, endDate)

/-- Scheduling-relevant columns of a `Recipient` row as `processRecipient`
reads them. -/
structure RecipientRec where
  startDate : Option JDate
  lastSent : Option JDate
  frequency : String
  retryAttempts : Nat
  nextRetryAt : Option JDate
  isActive : Bool
deriving DecidableEq, Repr

/-- Embedding of `handleRecipientError` over calendar timestamps: the
`new Date()` it reads is the `wallNow` parameter. -/
def handleRecipientError (r : RecipientRec) (wallNow : JDate) : RecipientRec :=
  let attempts := r.retryAttempts + 1
  if attempts ≥ maxRetries then
    { r with retryAttempts := attempts, isActive := false, nextRetryAt := none }
  else
    { r with retryAttempts := attempts,
             nextRetryAt := some (addHoursJ wallNow (retryDelay (attempts - 1))) }

/-- Outcome of one `processRecipient` call: the returned `success` flag,
whether `sendSMS` was invoked, the recipient row written back (none when
nothing was persisted), and the reporting window that was computed. -/
structure ProcResult where
  success : Bool
  attemptedSend : Bool
  saved : Option RecipientRec
  window : Option (JDate × JDate)
deriving DecidableEq, Repr

/-- Embedding of `processRecipient`: skip while `nextRetryAt` lies in the
future, skip without a `startDate`, skip when `calculateNextSendDate`
yields nothing or a future date, skip when the schedule relation is
missing; otherwise attempt the send and persist either the success state
or the `handleRecipientError` state. -/
def processRecipient (r : RecipientRec) (currentDate wallNow : JDate)
    (hasSchedule smsOk : Bool) : ProcResult :=
  if (match r.nextRetryAt with
      | some t => isAfter t currentDate
      | none => false) then
    ⟨false, false, none, none⟩
  else
    match r.startDate with
    | none => ⟨false, false, none, none⟩
    | some sd =>
      match calculateNextSendDate r.lastSent r.frequency sd currentDate with
      | none => ⟨false, false, none, none⟩
      | some nsd =>
        if isAfter nsd currentDate then ⟨false, false, none, none⟩
        else
          let w := getDateRange r.frequency currentDate
          if hasSchedule = false then ⟨false, false, none, some w⟩
          else if smsOk then
            ⟨true, true,
             some { r with lastSent := some currentDate, retryAttempts := 0,
                           nextRetryAt := none }, some w⟩
          else
            ⟨false, true, some (handleRecipientError r wallNow), some w⟩

end CronJob

/-- With a non-null `lastSent`, a frequency string outside the five known
ones makes `calculateNextSendDate` return nothing. -/
theorem calcNext_unknown_freq (ls : JDate) (f : String) (sd now : JDate)
    (h1 : f ≠ "Daily") (h2 : f ≠ "Weekly") (h3 : f ≠ "Monthly")
    (h4 : f ≠ "Quarterly") (h5 : f ≠ "Annually") :
    calculateNextSendDate (some ls) f sd now = none := by
  unfold calculateNextSendDate
  simp [h1, h2, h3, h4, h5]

/-- Claim C10 (counterexample): an active recipient with the unrecognised
frequency `Biweekly` but a null `lastSent` and a past `startDate` is
processed all the way through: `sendSMS` is invoked and, on gateway
success, `processRecipient` returns `success = true` and persists new
state, because `calculateNextSendDate` ignores the frequency entirely when
`lastSent` is null. -/
theorem c10_counterexample :
    (CronJob.processRecipient
      ⟨some ⟨2024, 0, 1, 0⟩, none, "Biweekly", 0, none, true⟩
      ⟨2024, 5, 1, 10⟩ ⟨2024, 5, 1, 10⟩ true true).success = true ∧
    (CronJob.processRecipient
      ⟨some ⟨2024, 0, 1, 0⟩, none, "Biweekly", 0, none, true⟩
      ⟨2024, 5, 1, 10⟩ ⟨2024, 5, 1, 10⟩ true true).attemptedSend = true ∧
    (CronJob.processRecipient
      ⟨some ⟨2024, 0, 1, 0⟩, none, "Biweekly", 0, none, true⟩
      ⟨2024, 5, 1, 10⟩ ⟨2024, 5, 1, 10⟩ true true).saved ≠ none := by
  refine ⟨?_, ?_, ?_⟩ <;> simp [CronJob.processRecipient, calculateNextSendDate,
    isAfter, jlt, CronJob.getDateRange]

/-- Claim C10 (amended): an active recipient whose `startDate` is null, or
whose `lastSent` is non-null while its frequency string is not one of the
five supported values, is skipped: `processRecipient` returns
`success = false`, never invokes `sendSMS`, and persists nothing. -/
theorem c10_amended_guards (r : CronJob.RecipientRec) (now wallNow : JDate)
    (hs ok : Bool)
    (h : r.startDate = none ∨
      (r.lastSent ≠ none ∧ r.frequency ≠ "Daily" ∧ r.frequency ≠ "Weekly" ∧
       r.frequency ≠ "Monthly" ∧ r.frequency ≠ "Quarterly" ∧
       r.frequency ≠ "Annually")) :
    (CronJob.processRecipient r now wallNow hs ok).success = false ∧
    (CronJob.processRecipient r now wallNow hs ok).attemptedSend = false ∧
    (CronJob.processRecipient r now wallNow hs ok).saved = none := by
  have hres : CronJob.processRecipient r now wallNow hs ok =
      ⟨false, false, none, none⟩ := by
    unfold CronJob.processRecipient
    split
    · rfl
    · rcases h with hsd | ⟨hls, h1, h2, h3, h4, h5⟩
      · rw [hsd]
      · cases hsd : r.startDate with
        | none => rfl
        | some sd =>
            obtain ⟨ls, hls2⟩ := Option.ne_none_iff_exists'.mp hls
            rw [hls2]
            simp only [calcNext_unknown_freq ls r.frequency sd now h1 h2 h3 h4 h5]
  rw [hres]
  exact ⟨rfl, rfl, rfl⟩

/-- Witness for C10 (amended): a recipient with `lastSent` set and
frequency `Biweekly` is skipped with nothing persisted. -/
theorem c10_witness :
    (CronJob.processRecipient
      ⟨some ⟨2024, 0, 1, 0⟩, some ⟨2024, 0, 1, 0⟩, "Biweekly", 0, none, true⟩
      ⟨2024, 5, 1, 10⟩ ⟨2024, 5, 1, 10⟩ true true).success = false ∧
    (CronJob.processRecipient
      ⟨some ⟨2024, 0, 1, 0⟩, some ⟨2024, 0, 1, 0⟩, "Biweekly", 0, none, true⟩
      ⟨2024, 5, 1, 10⟩ ⟨2024, 5, 1, 10⟩ true true).attemptedSend = false ∧
    (CronJob.processRecipient
      ⟨some ⟨2024, 0, 1, 0⟩, some ⟨2024, 0, 1, 0⟩, "Biweekly", 0, none, true⟩
      ⟨2024, 5, 1, 10⟩ ⟨2024, 5, 1, 10⟩ true true).saved = none :=
  c10_amended_guards
    ⟨some ⟨2024, 0, 1, 0⟩, some ⟨2024, 0, 1, 0⟩, "Biweekly", 0, none, true⟩
    ⟨2024, 5, 1, 10⟩ ⟨2024, 5, 1, 10⟩ true true
    (Or.inr ⟨by decide, by decide, by decide, by decide, by decide, by decide⟩)

/-!
Part 6: the sweep driver `runScheduledSMSJob`.  The driver writes a
`started` CronRunLog record, loads the active recipients (an operation that
may itself fail, modelled as an `Except`), then loops: each iteration runs
`processRecipient` inside try/catch — a resolved call counts towards
`processedCount` (and `successCount` when successful), a thrown error is
caught and routed to `handleRecipientError`, after which the loop moves on.
The per-recipient behaviour is abstracted as an event: what that
iteration's `processRecipient` call did.
-/

/-- What one iteration's `processRecipient` call did: resolved with the
given `success` flag, or threw. -/
inductive PEvent where
  | ok (success : Bool)
  | thrown
deriving DecidableEq, Repr

/-- Record of how one recipient was handled in the loop: counted as
processed, or routed through the catch block to `handleRecipientError`. -/
inductive SweepEntry where
  | processed (success : Bool)
  | errorHandled
deriving DecidableEq, Repr

/-- The recipient loop of `runScheduledSMSJob`: one entry per recipient,
plus the `processedCount` and `successCount` tallies. -/
def sweepLoop : List PEvent → List SweepEntry × Nat × Nat
  | [] => ([], 0, 0)
  | PEvent.ok b :: rest =>
      let r := sweepLoop rest
      (SweepEntry.processed b :: r.1, r.2.1 + 1, if b then r.2.2 + 1 else r.2.2)
  | PEvent.thrown :: rest =>
      let r := sweepLoop rest
      (SweepEntry.errorHandled :: r.1, r.2.1, r.2.2)

/-- Final CronRunLog state of one sweep, with the per-recipient trace. -/
structure CronRunOutcome where
  status : String
  processedCount : Option Nat
  successCount : Option Nat
  entries : List SweepEntry
deriving DecidableEq, Repr

/-- Embedding of `runScheduledSMSJob`: a failure to load the recipient list
marks the log `failed`; otherwise every recipient is handled and the log is
marked `completed` with the processed count. -/
def runScheduledSMSJob : Except String (List PEvent) → CronRunOutcome
  | Except.error _ => ⟨"failed", none, none, []⟩
  | Except.ok evs =>
      let r := sweepLoop evs
      ⟨"completed", some r.2.1, some r.2.2, r.1⟩

/-- Number of recipients whose `processRecipient` call resolved. -/
def countResolved (evs : List PEvent) : Nat :=
  (evs.filter (fun e => e ≠ PEvent.thrown)).length

/-- The loop produces one entry per recipient and tallies exactly the
resolved calls. -/
theorem sweepLoop_spec (evs : List PEvent) :
    (sweepLoop evs).1.length = evs.length ∧
    (sweepLoop evs).2.1 = countResolved evs := by
  induction evs with
  | nil => exact ⟨rfl, rfl⟩
  | cons e rest ih =>
      cases e with
      | ok b =>
          simp only [sweepLoop, List.length_cons, countResolved, List.filter,
            decide_not]
          constructor
          · rw [ih.1]
          · have := ih.2
            simp only [countResolved] at this
            simp [this]
      | thrown =>
          simp only [sweepLoop, List.length_cons, countResolved, List.filter,
            decide_not]
          constructor
          · rw [ih.1]
          · have := ih.2
            simp only [countResolved] at this
            simp [this]

/-- Claim C8: a thrown error while processing one recipient never aborts
the rest of the sweep — every recipient before and after it still yields a
loop entry — and the CronRunLog still ends `completed`, with
`processedCount` counting exactly the resolved calls on both sides; only a
sweep-level failure (the recipient query throwing) marks the log `failed`,
with no recipient handled. -/
theorem c8_sweep_isolation (pre post : List PEvent) (e : String) :
    (runScheduledSMSJob (Except.ok (pre ++ PEvent.thrown :: post))).status =
      "completed" ∧
    (runScheduledSMSJob
        (Except.ok (pre ++ PEvent.thrown :: post))).entries.length =
      pre.length + 1 + post.length ∧
    (runScheduledSMSJob
        (Except.ok (pre ++ PEvent.thrown :: post))).processedCount =
      some (countResolved pre + countResolved post) ∧
    (runScheduledSMSJob (Except.error e)).status = "failed" ∧
    (runScheduledSMSJob (Except.error e)).entries = [] := by
  have hlen := (sweepLoop_spec (pre ++ PEvent.thrown :: post)).1
  have hcnt := (sweepLoop_spec (pre ++ PEvent.thrown :: post)).2
  have hsplit : countResolved (pre ++ PEvent.thrown :: post) =
      countResolved pre + countResolved post := by
    simp [countResolved, List.filter_append]
  refine ⟨rfl, ?_, ?_, rfl, rfl⟩
  · show (sweepLoop (pre ++ PEvent.thrown :: post)).1.length = _
    rw [hlen]
    simp
    omega
  · show some (sweepLoop (pre ++ PEvent.thrown :: post)).2.1 = _
    rw [hcnt, hsplit]
